import Mathlib

/-!
Shallow embedding of the guitar-tab web player's audio core
(`src/js/audio.js`): the `GuitarAudioEngine` synthesis engine and the
`TabSequencer` transport.  JS numbers are modelled as `ℚ`; the Web Audio
`AudioParam` automation calls used by the source are modelled as an
explicit event list with an evaluation function; oscillator nodes carry
their scheduled start/stop times.  The note frequency
`440 * 2^((midi-69)/12)` is irrational, so the semantics is parametrised
by an arbitrary `freqOf : ℤ → ℚ`; no claim depends on its values.
-/

/-- Oscillator waveform type (the source uses `triangle`, `sine`, `sawtooth`). -/
inductive OscType where
  | sine
  | triangle
  | sawtooth
deriving DecidableEq

/-- One Web Audio `AudioParam` automation event, as used by the source:
`setValueAtTime`, `linearRampToValueAtTime`, `exponentialRampToValueAtTime`. -/
inductive ParamEvent where
  | setValue (v t : ℚ)
  | linearRamp (v t : ℚ)
  | expRamp (v t : ℚ)
deriving DecidableEq

/-- Scheduled time of an automation event. -/
def ParamEvent.time : ParamEvent → ℚ
  | .setValue _ t => t
  | .linearRamp _ t => t
  | .expRamp _ t => t

/-- Target value of an automation event. -/
def ParamEvent.target : ParamEvent → ℚ
  | .setValue v _ => v
  | .linearRamp v _ => v
  | .expRamp v _ => v

/-- A Web Audio `AudioParam`: its intrinsic value plus the chronological
list of scheduled automation events. -/
structure AudioParam where
  initial : ℚ
  events : List ParamEvent
deriving DecidableEq

/-- Value of the parameter at time `u`, walking the (chronological) event
list: a `setValue` holds its previous value until its time, a linear ramp
interpolates from the previous event.  Inside an exponential ramp segment
the exact value is irrational, so `none` is returned there; no claim
evaluates a parameter inside an exponential segment. -/
def ParamEvent.valueFrom (v0 t0 : ℚ) : List ParamEvent → ℚ → Option ℚ
  | [], _ => some v0
  | e :: rest, u =>
    if e.time ≤ u then ParamEvent.valueFrom e.target e.time rest u
    else match e with
      | .setValue _ _ => some v0
      | .linearRamp v t => some (v0 + (v - v0) * (u - t0) / (t - t0))
      | .expRamp _ _ => none

/-- `param.value` read / evaluation at time `u`. -/
def AudioParam.valueAt (p : AudioParam) (u : ℚ) : Option ℚ :=
  ParamEvent.valueFrom p.initial 0 p.events u

/-- The `.value` getter of the source (total; the `none` case does not
arise on the parameters the source reads). -/
def AudioParam.valueNow (p : AudioParam) (u : ℚ) : ℚ :=
  (p.valueAt u).getD 0

/-- `gain.cancelScheduledValues(t)`: drop events scheduled at or after `t`. -/
def AudioParam.cancelScheduledValues (p : AudioParam) (t : ℚ) : AudioParam :=
  { p with events := p.events.filter (fun e => decide (e.time < t)) }

/-- `gain.setValueAtTime(v, t)`. -/
def AudioParam.setValueAtTime (p : AudioParam) (v t : ℚ) : AudioParam :=
  { p with events := p.events ++ [ParamEvent.setValue v t] }

/-- `gain.linearRampToValueAtTime(v, t)`. -/
def AudioParam.linearRampToValueAtTime (p : AudioParam) (v t : ℚ) : AudioParam :=
  { p with events := p.events ++ [ParamEvent.linearRamp v t] }

/-- `gain.exponentialRampToValueAtTime(v, t)`. -/
def AudioParam.exponentialRampToValueAtTime (p : AudioParam) (v t : ℚ) : AudioParam :=
  { p with events := p.events ++ [ParamEvent.expRamp v t] }

/-- An `OscillatorNode` as used by the source: waveform, frequency, the
scheduled `start`/`stop` times, and whether it is still a member of the
engine's `activeOscillators` set (membership ends via the `ended`
listener, which fires only once the oscillator has stopped). -/
structure Oscillator where
  freq : ℚ
  kind : OscType
  startTime : ℚ
  stopTime : ℚ
  inOscSet : Bool
deriving DecidableEq

/-- `osc.stop(t)`: the oscillator produces no output at or after `t`
(both already-sounding and scheduled-in-the-future oscillators). -/
def Oscillator.stopAt (o : Oscillator) (t : ℚ) : Oscillator :=
  { o with stopTime := min o.stopTime t }

/-- The oscillator contributes signal at time `u`. -/
def Oscillator.soundingAt (o : Oscillator) (u : ℚ) : Prop :=
  o.startTime ≤ u ∧ u < o.stopTime

instance (o : Oscillator) (u : ℚ) : Decidable (o.soundingAt u) := by
  unfold Oscillator.soundingAt
  infer_instance

/-- One harmonic of the additive voice: its oscillator plus the constant
value of its `harmonicGain` node. -/
structure Harm where
  osc : Oscillator
  gainValue : ℚ
deriving DecidableEq

/-- One additive-synthesis voice as built by `playSimpleGuitarNote`:
the 5-harmonic oscillator bank, the vibrato LFO (4.5 Hz, connected to
pitch modulation, not to the output), the mix/envelope/stoppable gain
nodes and the two filter corner frequencies.  `inVoicesMap` records
membership in the engine's `activeVoices` map (the registry). -/
structure Voice where
  midiNote : ℤ
  startTime : ℚ
  harmonics : List Harm
  vibrato : Oscillator
  vibratoDepth : ℚ
  mixGainValue : ℚ
  filter1Freq : ℚ
  filter2Freq : ℚ
  envelope : AudioParam
  stoppableGain : AudioParam
  inVoicesMap : Bool
deriving DecidableEq

/-- All oscillators of a voice that the engine tracks in
`activeOscillators`: the five harmonics and the vibrato LFO. -/
def Voice.oscillators (v : Voice) : List Oscillator :=
  v.harmonics.map (fun h => h.osc) ++ [v.vibrato]

/-- A voice is audible at `u` when some of its oscillators is sounding
and its per-voice (stoppable) gain is not zero.  (The full output also
passes the envelope and master gain; zero per-voice gain or no sounding
oscillator already forces silence.) -/
def Voice.audibleAt (v : Voice) (u : ℚ) : Prop :=
  (∃ o ∈ v.oscillators, o.soundingAt u) ∧ v.stoppableGain.valueAt u ≠ some 0

/-- A symbolic note event of the tab payload: `string`/`fret` plus beat
timing (`globalBeatPosition` is optional in the payload). -/
structure NoteEvent where
  string : ℤ
  fret : ℤ
  beatPosition : ℚ
  beatDuration : ℚ
  globalBeatPosition : Option ℚ
deriving DecidableEq

/-- State of `GuitarAudioEngine`: initialization flag, master gain param,
and every voice created so far (each voice carrying its registry flags). -/
structure EngineState where
  initialized : Bool
  masterGain : AudioParam
  voices : List Voice
deriving DecidableEq

namespace GuitarAudioEngine

/-- Per-string physical characteristics. -/
structure StringChar where
  damping : ℚ
  tension : ℚ
  pluckPos : ℚ
  isWound : Bool
deriving DecidableEq

/-- `this.standardTuning = [64, 59, 55, 50, 45, 40]`. -/
def standardTuning : List ℤ := [64, 59, 55, 50, 45, 40]

/-- `this.stringCharacteristics` (high E first, low E last). -/
def stringCharacteristics : List StringChar :=
  [ { damping := 0.9995, tension := 1, pluckPos := 0.3, isWound := false }
  , { damping := 0.9996, tension := 1, pluckPos := 0.3, isWound := false }
  , { damping := 0.9997, tension := 1, pluckPos := 0.3, isWound := false }
  , { damping := 0.9998, tension := 1, pluckPos := 0.3, isWound := true }
  , { damping := 0.9998, tension := 1, pluckPos := 0.3, isWound := true }
  , { damping := 0.9999, tension := 1, pluckPos := 0.3, isWound := true } ]

/-- Constructor state: no audio context yet, empty registries. -/
def engCtor : EngineState :=
  { initialized := false, masterGain := { initial := 0, events := [] }, voices := [] }

/-- `initialize()`: idempotent; creates the master gain at value 0.3. -/
def initEngine (s : EngineState) : EngineState :=
  if s.initialized then s
  else { s with initialized := true, masterGain := { initial := 0.3, events := [] } }

/-- `noteEventToMidiNote`: `-1` for a rest or an out-of-range string. -/
def noteEventToMidiNote (ev : NoteEvent) : ℤ :=
  if ev.fret < 0 ∨ ev.string < 0 ∨ 6 ≤ ev.string then -1
  else (standardTuning.getD ev.string.toNat 0) + ev.fret

/-- The harmonic table of `playSimpleGuitarNote`: frequency, amplitude
and waveform of the five oscillators (fundamental plus 2x to 5x). -/
def harmonicTable (frequency : ℚ) : List (ℚ × ℚ × OscType) :=
  [ (frequency, 1.0, OscType.triangle)
  , (frequency * 2, 0.6, OscType.sine)
  , (frequency * 3, 0.3, OscType.sine)
  , (frequency * 4, 0.15, OscType.sine)
  , (frequency * 5, 0.1, OscType.sine) ]

/-- The node graph `playSimpleGuitarNote` builds for one note: the
5-harmonic bank (with the wound-string attenuation `amp *= 0.7` for
`index > 1`), the envelope schedule, the vibrato LFO, the two filters,
and the per-note stoppable gain (constant 1.0, registered in
`activeVoices`). -/
def mkVoice (freqOf : ℤ → ℚ) (midiNote : ℤ) (startTime duration : ℚ)
    (stringIndex : ℕ) : Voice :=
  let frequency := freqOf midiNote
  let stringChar := stringCharacteristics.getD stringIndex
    { damping := 0, tension := 0, pluckPos := 0, isWound := false }
  let sustainLevel := stringChar.damping * 0.25
  { midiNote := midiNote
  , startTime := startTime
  , harmonics := (harmonicTable frequency).enum.map (fun p =>
      { osc := { freq := p.2.1, kind := p.2.2.2, startTime := startTime,
                 stopTime := startTime + duration, inOscSet := true }
      , gainValue := if stringChar.isWound ∧ 1 < p.1 then p.2.2.1 * 0.7
                     else p.2.2.1 })
  , vibrato := { freq := 4.5, kind := OscType.sine,
                 startTime := startTime + 0.1,
                 stopTime := startTime + duration, inOscSet := true }
  , vibratoDepth := frequency * 0.005
  , mixGainValue := 0.3
  , filter1Freq := frequency * (if stringChar.isWound then 4 else 6)
  , filter2Freq := frequency * 0.5
  , envelope :=
      ((((({ initial := 1, events := [] } : AudioParam).setValueAtTime 0
        startTime).linearRampToValueAtTime 1.0
        (startTime + 0.002)).exponentialRampToValueAtTime 0.4
        (startTime + 0.05)).exponentialRampToValueAtTime sustainLevel
        (startTime + 0.2)).exponentialRampToValueAtTime 0.001
        (startTime + duration)
  , stoppableGain := { initial := 1, events := [] }
  , inVoicesMap := true }

/-- `playSimpleGuitarNote`: builds the voice, tracks its oscillators in
`activeOscillators` and registers its stoppable gain in `activeVoices`
under key `midiNote-startTime` (a `Map.set`, so an existing entry with
the same key is replaced — the displaced voice leaves the registry).
The delayed `setTimeout` cleanups are asynchronous host events, not part
of this synchronous transition. -/
def playSimpleGuitarNote (freqOf : ℤ → ℚ) (s : EngineState) (midiNote : ℤ)
    (startTime duration : ℚ) (stringIndex : ℕ) : EngineState :=
  { s with voices :=
      (s.voices.map (fun v =>
        if v.midiNote = midiNote ∧ v.startTime = startTime ∧ v.inVoicesMap
        then { v with inVoicesMap := false } else v))
      ++ [mkVoice freqOf midiNote startTime duration stringIndex] }

/-- `playNote(noteEvent, startTime, duration)`: ensures the context,
resolves the MIDI note, silently no-ops on an invalid event, otherwise
synthesizes at `audioContext.currentTime + startTime`.  (The trailing
`setTimeout` calls `activeVoices.delete(midiNote)` with a number, but
the map is keyed by `midiNote-startTime` strings, so it never matches.) -/
def playNote (freqOf : ℤ → ℚ) (s : EngineState) (now : ℚ) (ev : NoteEvent)
    (startTime duration : ℚ) : EngineState :=
  let s := initEngine s
  let midiNote := noteEventToMidiNote ev
  if midiNote < 0 then s
  else playSimpleGuitarNote freqOf s midiNote (now + startTime) duration
    ev.string.toNat

/-- The oscillator-set part of `stopAllNotes`: every oscillator still in
`activeOscillators` gets `osc.stop(t)` and the set is cleared. -/
def stopOsc (t : ℚ) (o : Oscillator) : Oscillator :=
  if o.inOscSet then { o.stopAt t with inOscSet := false } else o

/-- The per-voice part of `stopAllNotes`: stop the voice's tracked
oscillators, and for a registered voice cancel and zero its stoppable
gain at `t` (the `activeVoices` map is then cleared). -/
def stopVoice (t : ℚ) (v : Voice) : Voice :=
  let hs := v.harmonics.map (fun h => { h with osc := stopOsc t h.osc })
  let v1 := { v with harmonics := hs, vibrato := stopOsc t v.vibrato }
  if v1.inVoicesMap then
    let g := (v1.stoppableGain.cancelScheduledValues t).setValueAtTime 0 t
    { v1 with stoppableGain := g, inVoicesMap := false }
  else v1

/-- `stopAllNotes()`: guard on a missing context; hard-mute the master
(cancel, pin the current value at `t`, linear ramp to 0.0001 over 10 ms);
stop all tracked oscillators; zero and clear all registered per-voice
gains. -/
def stopAllNotes (s : EngineState) (t : ℚ) : EngineState :=
  if s.initialized then
    let g := s.masterGain.cancelScheduledValues t
    let g := g.setValueAtTime (g.valueNow t) t
    let g := g.linearRampToValueAtTime 0.0001 (t + 0.01)
    { s with masterGain := g, voices := s.voices.map (stopVoice t) }
  else s

/-- `setMasterVolume(volume)`: clamp to `[0,1]`, cancel in-flight ramps
and apply at the current time (no-op before initialization). -/
def setMasterVolume (s : EngineState) (now volume : ℚ) : EngineState :=
  if s.initialized then
    let g := (s.masterGain.cancelScheduledValues now).setValueAtTime (max 0 (min 1 volume)) now
    { s with masterGain := g }
  else s

end GuitarAudioEngine

/-- A measure of the tab payload: its notes plus the (unparsed, optional)
time signature; the base scheduler fixes beats-per-measure at 4. -/
structure Measure where
  timeSignature : Option String
  notes : List NoteEvent
deriving DecidableEq

/-- The tab payload as consumed by the sequencer: title is irrelevant to
the modelled operations; `tempo` is optional (and falsy `0` is ignored
by `setTabData`). -/
structure TabData where
  tempo : Option ℚ
  measures : List Measure
deriving DecidableEq

namespace TabSequencer

/-- One entry of `this.allNotes`: the source note, its resolved beat
position, its beat duration, and the fired flag. -/
structure TrigNote where
  note : NoteEvent
  beatPosition : ℚ
  beatDuration : ℚ
  triggered : Bool
deriving DecidableEq

/-- One dispatched `audioEngine.playNote(note, startTime, duration)` call. -/
structure Dispatch where
  note : NoteEvent
  startTime : ℚ
  duration : ℚ
deriving DecidableEq

/-- `TabSequencer` state (the fields of the class constructor that the
modelled operations read or write). -/
structure State where
  isPlaying : Bool
  isPaused : Bool
  currentBeat : ℚ
  tempo : ℚ
  tabData : Option TabData
  allNotes : List TrigNote
  startTime : ℚ
  pausedTime : ℚ
  totalPausedDuration : ℚ
  isLooping : Bool
  totalDuration : ℚ
  loopStartMeasure : ℚ
  loopEndMeasure : ℚ
deriving DecidableEq

/-- The constructor's initial state. -/
def ctor : State :=
  { isPlaying := false, isPaused := false, currentBeat := 0, tempo := 120
  , tabData := none, allNotes := [], startTime := 0, pausedTime := 0
  , totalPausedDuration := 0, isLooping := false, totalDuration := 0
  , loopStartMeasure := 1, loopEndMeasure := 8 }

/-- `setTabData(tabData)`: stores the tab and copies a truthy `tempo`
field verbatim (no clamping; a `tempo` of `0` is falsy and ignored). -/
def setTabData (s : State) (tab : TabData) : State :=
  let t := match tab.tempo with
    | some bpm => if bpm = 0 then s.tempo else bpm
    | none => s.tempo
  { s with tabData := some tab, tempo := t }

/-- `setTempo(bpm) : this.tempo = Math.max(60, Math.min(200, bpm))`. -/
def setTempo (s : State) (bpm : ℚ) : State :=
  { s with tempo := max 60 (min 200 bpm) }

/-- `setLooping(enabled)`. -/
def setLooping (s : State) (enabled : Bool) : State :=
  { s with isLooping := enabled }

/-- `setLoopRange(startMeasure, endMeasure)`. -/
def setLoopRange (s : State) (startMeasure endMeasure : ℚ) : State :=
  { s with loopStartMeasure := startMeasure, loopEndMeasure := endMeasure }

/-- The note-collection loop of `prepareNotes`: every note with
`fret >= 0` becomes a trigger whose beat position is
`globalBeatPosition` when defined and the local `beatPosition`
otherwise, in measure/note traversal order. -/
def flattenNotes (tab : TabData) : List TrigNote :=
  tab.measures.flatMap (fun m => m.notes.filterMap (fun n =>
    if 0 ≤ n.fret then
      some { note := n, beatPosition := n.globalBeatPosition.getD n.beatPosition
           , beatDuration := n.beatDuration, triggered := false }
    else none))

/-- Stable insertion of a trigger into a list sorted by beat position:
the new element goes before the first entry whose beat position is not
smaller. -/
def insertTrig (x : TrigNote) : List TrigNote → List TrigNote
  | [] => [x]
  | y :: ys => if y.beatPosition < x.beatPosition then y :: insertTrig x ys
               else x :: y :: ys

/-- `allNotes.sort((a, b) => a.beatPosition - b.beatPosition)`:
ECMAScript `Array.prototype.sort` is a stable sort by the comparator, so
any stable sorting algorithm models it; insertion sort is used here. -/
def sortTriggers : List TrigNote → List TrigNote
  | [] => []
  | x :: xs => insertTrig x (sortTriggers xs)

/-- `prepareNotes()`: recompute `totalDuration` from the current tempo
and rebuild the sorted trigger list.  (Only called with tab data loaded;
the `none` branch is unreachable from `play`.) -/
def prepareNotes (s : State) : State :=
  match s.tabData with
  | none => s
  | some tab =>
    let beatDuration := 60 / s.tempo
    let totalBeats : ℚ := (tab.measures.length : ℚ) * 4
    { s with totalDuration := totalBeats * beatDuration,
             allNotes := sortTriggers (flattenNotes tab) }

/-- `startFreshPlayback()` minus the interval start: reset the playhead,
record the start time, zero the paused accounting, prepare the triggers. -/
def startFreshPlayback (s : State) (now : ℚ) : State :=
  prepareNotes { s with isPlaying := true, isPaused := false
                      , currentBeat := 0, startTime := now
                      , totalPausedDuration := 0 }

/-- `pause()` (sequencer fields; the engine-side `stopAllNotes` is a
separate effect on `EngineState`). -/
def pause (s : State) (now : ℚ) : State :=
  { s with isPlaying := false, isPaused := true, pausedTime := now }

/-- `resume()`: accumulate the elapsed pause into
`totalPausedDuration`; the trigger list is left untouched. -/
def resume (s : State) (now : ℚ) : State :=
  { s with isPlaying := true, isPaused := false,
           totalPausedDuration := s.totalPausedDuration + (now - s.pausedTime) }

/-- `stop()` (sequencer fields; engine `stopAllNotes` and the
`onProgress(0)` report are recorded by the tick result / combined ops). -/
def stopSeq (s : State) : State :=
  { s with isPlaying := false, isPaused := false, currentBeat := 0,
           totalPausedDuration := 0 }

/-- The beat the tick computes from the clock:
`(now - startTime - totalPausedDuration) / (60 / tempo)`. -/
def computedBeat (s : State) (now : ℚ) : ℚ :=
  (now - s.startTime - s.totalPausedDuration) / (60 / s.tempo)

/-- `const lookahead = 0.05` of the tick (compared against beat values). -/
def lookahead : ℚ := 0.05

/-- The tick's firing condition for one trigger:
`!noteData.triggered && currentBeat >= beatPosition - lookahead &&
currentBeat <= beatPosition + lookahead`. -/
def shouldFire (beat : ℚ) (tn : TrigNote) : Bool :=
  !tn.triggered && decide (tn.beatPosition - lookahead ≤ beat)
    && decide (beat ≤ tn.beatPosition + lookahead)

/-- The flag updates of the tick's trigger loop (each entry is examined
once, independently, in list order). -/
def fireAll (beat : ℚ) (notes : List TrigNote) : List TrigNote :=
  notes.map (fun tn => if shouldFire beat tn then { tn with triggered := true }
                       else tn)

/-- The `playNote` dispatches of the tick's trigger loop: start offset
`Math.max(0, (beatPosition - currentBeat) * beatDuration)` and duration
`beatDuration * beatDuration-per-beat`. -/
def firedDispatches (beat spb : ℚ) (notes : List TrigNote) : List Dispatch :=
  notes.filterMap (fun tn =>
    if shouldFire beat tn then
      some { note := tn.note
           , startTime := max 0 ((tn.beatPosition - beat) * spb)
           , duration := tn.beatDuration * spb }
    else none)

/-- `loop()`: reposition the playhead to the loop start, shift
`startTime` so the computed beat is exactly the loop start, zero the
paused accounting, and un-fire exactly the triggers whose beat position
falls in `[loopStartBeat, loopEndBeat)`. -/
def loop (s : State) (now : ℚ) : State :=
  let loopStartBeat := (s.loopStartMeasure - 1) * 4
  let loopEndBeat := s.loopEndMeasure * 4
  let notes := s.allNotes.map (fun tn =>
    if loopStartBeat ≤ tn.beatPosition ∧ tn.beatPosition < loopEndBeat
    then { tn with triggered := false } else tn)
  { s with currentBeat := loopStartBeat,
           startTime := now - loopStartBeat * (60 / s.tempo),
           totalPausedDuration := 0,
           allNotes := notes }

/-- Observable outcome of one tick: the state afterwards, the `playNote`
dispatches, the values passed to the progress callback (in order), and
whether completion fired (which also force-silences the engine). -/
structure TickResult where
  state : State
  fired : List Dispatch
  progressReports : List ℚ
  completed : Bool
deriving DecidableEq

/-- One invocation of the 10 ms interval callback installed by
`startRealtimePlayback`, at clock time `now`: compute the beat and the
progress `min(currentBeat / (totalDuration / beatDuration), 1)`, fire
the due triggers, report progress, then either loop
(`isLooping && currentBeat >= loopEndMeasure*4`), complete
(`!isLooping && progress >= 1`, which runs `stop()` and reports 0), or
continue. -/
def tick (s : State) (now : ℚ) : TickResult :=
  if s.isPlaying then
    let beatDuration := 60 / s.tempo
    let beat := computedBeat s now
    let progress := min (beat / (s.totalDuration / beatDuration)) 1
    let fired := firedDispatches beat beatDuration s.allNotes
    let s1 := { s with currentBeat := beat, allNotes := fireAll beat s.allNotes }
    if s.isLooping = true ∧ s.loopEndMeasure * 4 ≤ beat then
      { state := loop s1 now, fired := fired, progressReports := [progress]
      , completed := false }
    else if s.isLooping = false ∧ 1 ≤ progress then
      { state := stopSeq s1, fired := fired, progressReports := [progress, 0]
      , completed := true }
    else
      { state := s1, fired := fired, progressReports := [progress]
      , completed := false }
  else
    { state := s, fired := [], progressReports := [], completed := false }

/-- `play()`: no-op without tab data; otherwise ensure the audio
context, force the master volume to 0.3, and resume from pause or start
fresh. -/
def play (eng : EngineState) (s : State) (now : ℚ) : EngineState × State :=
  match s.tabData with
  | none => (eng, s)
  | some _ =>
    let eng1 := GuitarAudioEngine.initEngine eng
    let eng2 := GuitarAudioEngine.setMasterVolume eng1 now 0.3
    if s.isPaused then (eng2, resume s now)
    else (eng2, startFreshPlayback s now)

end TabSequencer

/-! ## Concrete fixtures used by witnesses and counterexamples -/

/-- An empty loaded tab used by concrete instances. -/
def emptyTab : TabData := { tempo := some 120, measures := [] }

/-- A sequencer with `emptyTab` loaded. -/
def seqWithEmptyTab : TabSequencer.State :=
  { TabSequencer.ctor with tabData := some emptyTab }

/-- An initialized engine that was muted via `setMasterVolume(0)`. -/
def mutedEngine : EngineState :=
  GuitarAudioEngine.setMasterVolume
    (GuitarAudioEngine.initEngine GuitarAudioEngine.engCtor) (-1) 0

/-- A tab whose `tempo` field lies outside `[60, 200]`. -/
def tab300 : TabData := { tempo := some 300, measures := [] }

/-- A note at global beat 2 on the open high-E string. -/
def c2Note : NoteEvent :=
  { string := 0, fret := 0, beatPosition := 2, beatDuration := 1
  , globalBeatPosition := some 2 }

/-- A one-measure tab holding `c2Note`, tempo 120. -/
def c2Tab : TabData :=
  { tempo := some 120, measures := [{ timeSignature := none, notes := [c2Note] }] }

/-- Fresh playback of `c2Tab` started at clock 0 (tempo 120, so one beat
is 0.5 s and the trigger at beat 2 is nominally at 1 s). -/
def c2State : TabSequencer.State :=
  TabSequencer.startFreshPlayback
    { TabSequencer.ctor with tabData := some c2Tab } 0

/-- A one-empty-measure tab (4 beats) with no tempo field. -/
def c4Tab : TabData :=
  { tempo := none, measures := [{ timeSignature := none, notes := [] }] }

/-- Playback of `c4Tab` prepared at the default tempo 120
(`totalDuration = 2` s), then re-tempoed to 60 mid-playback. -/
def c4State : TabSequencer.State :=
  TabSequencer.setTempo
    (TabSequencer.startFreshPlayback
      { TabSequencer.ctor with tabData := some c4Tab } 0) 60

/-- An un-fired trigger at beat 3 (inside loop range `[0,8)`). -/
def c5Trig3 : TabSequencer.TrigNote :=
  { note := c2Note, beatPosition := 3, beatDuration := 1, triggered := false }

/-- An un-fired trigger at beat 9 (outside loop range `[0,8)`). -/
def c5Trig9 : TabSequencer.TrigNote :=
  { note := c2Note, beatPosition := 9, beatDuration := 1, triggered := false }

/-- An already-fired trigger at beat 1. -/
def c5TrigFired : TabSequencer.TrigNote :=
  { note := c2Note, beatPosition := 1, beatDuration := 1, triggered := true }

/-- A looping playback over measures `[1,2)` (beats `[0,8)`). -/
def c5State : TabSequencer.State :=
  { TabSequencer.ctor with
      isPlaying := true, isLooping := true, loopStartMeasure := 1,
      loopEndMeasure := 2, tabData := some c2Tab,
      allNotes := [c5Trig3, c5Trig9, c5TrigFired] }

/-- A note with no `globalBeatPosition`, sitting in the second measure
of `c6Tab` at local beat 2. -/
def c6Note : NoteEvent :=
  { string := 0, fret := 0, beatPosition := 2, beatDuration := 1
  , globalBeatPosition := none }

/-- The second measure of `c6Tab`. -/
def c6MeasB : Measure := { timeSignature := none, notes := [c6Note] }

/-- A two-measure tab whose only note lacks `globalBeatPosition`. -/
def c6Tab : TabData :=
  { tempo := none
  , measures := [{ timeSignature := none, notes := [] }, c6MeasB] }

/-- A sequencer with `c6Tab` loaded. -/
def c6Seq : TabSequencer.State :=
  { TabSequencer.ctor with tabData := some c6Tab }

/-- An engine that has played one note (`c2Note`, scheduled at 0 for
1 s). -/
def c1Engine : EngineState :=
  GuitarAudioEngine.playNote (fun _ => 110) GuitarAudioEngine.engCtor 0
    c2Note 0 1

/-- The voice `c1Engine` registered for that note. -/
def c1Voice : Voice :=
  GuitarAudioEngine.mkVoice (fun _ => 110)
    (GuitarAudioEngine.noteEventToMidiNote c2Note) ((0 : ℚ) + 0) 1
    c2Note.string.toNat

/-- An engine on which `stopAllNotes` ran at time 0 and which then
received `playNote` at time 1. -/
def c8Engine : EngineState :=
  GuitarAudioEngine.playNote (fun _ => 110)
    (GuitarAudioEngine.stopAllNotes
      (GuitarAudioEngine.initEngine GuitarAudioEngine.engCtor) 0) 1
    c2Note 0 1

/-! ## Helper lemmas -/

/-- If every scheduled event lies at or before `u`, the parameter value
at `u` is the target of the last event (or the start value without
events). -/
theorem ParamEvent.valueFrom_of_all_le (u : ℚ) :
    ∀ (es : List ParamEvent) (v0 t0 : ℚ), (∀ e ∈ es, e.time ≤ u) →
      ParamEvent.valueFrom v0 t0 es u =
        some (es.foldl (fun _ e => e.target) v0) := by
  intro es
  induction es with
  | nil => intro v0 t0 _; rfl
  | cons e rest ih =>
    intro v0 t0 h
    have he : e.time ≤ u := h e (List.mem_cons_self e rest)
    have hrest : ∀ e' ∈ rest, e'.time ≤ u :=
      fun e' he' => h e' (List.mem_cons_of_mem e he')
    simp only [ParamEvent.valueFrom, if_pos he, List.foldl_cons]
    exact ih e.target e.time hrest

/-- Evaluating `cancelScheduledValues(t)` followed by
`setValueAtTime(v, t)` at any `u ≥ t` yields `v`. -/
theorem AudioParam.valueAt_cancel_set (p : AudioParam) (t v u : ℚ)
    (h : t ≤ u) :
    ((p.cancelScheduledValues t).setValueAtTime v t).valueAt u = some v := by
  unfold AudioParam.valueAt AudioParam.setValueAtTime
    AudioParam.cancelScheduledValues
  rw [ParamEvent.valueFrom_of_all_le]
  · simp [ParamEvent.target]
  · intro e he
    rcases List.mem_append.mp he with h1 | h2
    · have := List.of_mem_filter h1
      have : e.time < t := of_decide_eq_true this
      linarith
    · simp only [List.mem_singleton] at h2
      subst h2
      simpa [ParamEvent.time] using h

/-- Evaluating `cancelScheduledValues(t)`, `setValueAtTime(v, t)`,
`linearRampToValueAtTime(w, t2)` at any `u ≥ t2 ≥ t` yields `w`. -/
theorem AudioParam.valueAt_cancel_set_ramp (p : AudioParam)
    (t v w t2 u : ℚ) (h1 : t ≤ t2) (h2 : t2 ≤ u) :
    (((p.cancelScheduledValues t).setValueAtTime v t).linearRampToValueAtTime
      w t2).valueAt u = some w := by
  unfold AudioParam.valueAt AudioParam.setValueAtTime
    AudioParam.linearRampToValueAtTime AudioParam.cancelScheduledValues
  rw [ParamEvent.valueFrom_of_all_le]
  · simp [ParamEvent.target]
  · intro e he
    simp only [List.append_assoc, List.mem_append, List.mem_singleton] at he
    rcases he with h3 | h3 | h3
    · have := List.of_mem_filter h3
      have : e.time < t := of_decide_eq_true this
      linarith
    · subst h3; simp only [ParamEvent.time]; linarith
    · subst h3; simpa [ParamEvent.time] using h2

namespace GuitarAudioEngine

/-- `stopVoice` applies `stopOsc` to every oscillator the voice owns. -/
theorem oscillators_stopVoice (t : ℚ) (v : Voice) :
    (stopVoice t v).oscillators = v.oscillators.map (stopOsc t) := by
  by_cases h : v.inVoicesMap = true <;>
    simp [stopVoice, Voice.oscillators, h, List.map_map, Function.comp]

/-- A stopped oscillator (or one that had already ended, hence already
had a stop time at or before `t`) never runs past `t`. -/
theorem stopOsc_stopTime_le (t : ℚ) (o : Oscillator)
    (h : o.inOscSet = true ∨ o.stopTime ≤ t) :
    (stopOsc t o).stopTime ≤ t := by
  by_cases hset : o.inOscSet = true
  · simp [stopOsc, hset, Oscillator.stopAt]
  · rcases h with h | h
    · exact absurd h hset
    · simpa [stopOsc, hset] using h

/-- For a registered voice, `stopVoice` cancels and zeroes the
stoppable gain at `t`. -/
theorem stopVoice_gain (t : ℚ) (v : Voice) (hreg : v.inVoicesMap = true) :
    (stopVoice t v).stoppableGain =
      (v.stoppableGain.cancelScheduledValues t).setValueAtTime 0 t := by
  simp [stopVoice, hreg]

/-- `initialize` leaves an initialized engine unchanged. -/
theorem initEngine_of_initialized (s : EngineState)
    (h : s.initialized = true) : initEngine s = s := by
  simp [initEngine, h]

/-- `stopAllNotes` does not change the initialization flag. -/
theorem stopAllNotes_initialized (s : EngineState) (t : ℚ) :
    (stopAllNotes s t).initialized = s.initialized := by
  unfold stopAllNotes
  split <;> rfl

/-- A valid (in-range, non-rest) note event maps to a nonnegative MIDI
note. -/
theorem noteEventToMidiNote_nonneg (ev : NoteEvent) (hf : 0 ≤ ev.fret)
    (h0 : 0 ≤ ev.string) (h6 : ev.string < 6) :
    0 ≤ noteEventToMidiNote ev := by
  unfold noteEventToMidiNote
  rw [if_neg]
  · have htuning : 0 ≤ standardTuning.getD ev.string.toNat 0 := by
      interval_cases h : ev.string <;> decide
    linarith
  · push_neg
    exact ⟨hf, h0, h6⟩

end GuitarAudioEngine

namespace TabSequencer

/-- Inserting preserves the multiset of triggers. -/
theorem insertTrig_perm (x : TrigNote) (l : List TrigNote) :
    (insertTrig x l).Perm (x :: l) := by
  induction l with
  | nil => simp [insertTrig]
  | cons y ys ih =>
    by_cases h : y.beatPosition < x.beatPosition
    · simp only [insertTrig, if_pos h]
      exact (ih.cons y).trans (List.Perm.swap x y ys)
    · simp [insertTrig, if_neg h]

/-- Sorting preserves the multiset of triggers. -/
theorem sortTriggers_perm (l : List TrigNote) :
    (sortTriggers l).Perm l := by
  induction l with
  | nil => simp [sortTriggers]
  | cons x xs ih =>
    exact (insertTrig_perm x (sortTriggers xs)).trans (ih.cons x)

/-- Inserting into a list sorted by beat position keeps it sorted. -/
theorem insertTrig_sorted (x : TrigNote) (l : List TrigNote)
    (h : l.Pairwise (fun a b => a.beatPosition ≤ b.beatPosition)) :
    (insertTrig x l).Pairwise (fun a b => a.beatPosition ≤ b.beatPosition) := by
  induction l with
  | nil => simp [insertTrig]
  | cons y ys ih =>
    rcases List.pairwise_cons.mp h with ⟨hy, hys⟩
    by_cases hc : y.beatPosition < x.beatPosition
    · simp only [insertTrig, if_pos hc]
      refine List.pairwise_cons.mpr ⟨?_, ih hys⟩
      intro z hz
      have hz' : z ∈ x :: ys := (insertTrig_perm x ys).mem_iff.mp hz
      rcases List.mem_cons.mp hz' with hz1 | hz1
      · subst hz1; exact le_of_lt hc
      · exact hy z hz1
    · simp only [insertTrig, if_neg hc]
      refine List.pairwise_cons.mpr ⟨?_, h⟩
      intro z hz
      rcases List.mem_cons.mp hz with hz | hz
      · subst hz; exact le_of_not_lt hc
      · exact le_trans (le_of_not_lt hc) (hy z hz)

/-- The sorted trigger list is nondecreasing in beat position. -/
theorem sortTriggers_sorted (l : List TrigNote) :
    (sortTriggers l).Pairwise (fun a b => a.beatPosition ≤ b.beatPosition) := by
  induction l with
  | nil => simp [sortTriggers]
  | cons x xs ih => exact insertTrig_sorted x (sortTriggers xs) ih

/-- Insertion is stable: restricted to any single beat value, the list
is unchanged (the new element lands in front of its ties, and it is the
original-order-first element there). -/
theorem insertTrig_filter_key (b : ℚ) (x : TrigNote) (l : List TrigNote) :
    (insertTrig x l).filter (fun tn => tn.beatPosition == b) =
      (x :: l).filter (fun tn => tn.beatPosition == b) := by
  induction l with
  | nil => simp [insertTrig]
  | cons y ys ih =>
    by_cases hc : y.beatPosition < x.beatPosition
    · simp only [insertTrig, if_pos hc]
      by_cases hyb : y.beatPosition = b
      · have hx : ¬ x.beatPosition = b := by
          intro hx
          rw [hx] at hc
          rw [hyb] at hc
          exact lt_irrefl b hc
        simp [List.filter_cons, hyb, hx, ih]
      · simp [List.filter_cons, hyb, ih]
    · simp [insertTrig, if_neg hc]

/-- Sorting is stable: restricted to any single beat value, the trigger
list keeps its original order. -/
theorem sortTriggers_filter_key (b : ℚ) (l : List TrigNote) :
    (sortTriggers l).filter (fun tn => tn.beatPosition == b) =
      l.filter (fun tn => tn.beatPosition == b) := by
  induction l with
  | nil => rfl
  | cons x xs ih =>
    calc (sortTriggers (x :: xs)).filter (fun tn => tn.beatPosition == b)
        = (x :: sortTriggers xs).filter (fun tn => tn.beatPosition == b) :=
          insertTrig_filter_key b x (sortTriggers xs)
      _ = (x :: xs).filter (fun tn => tn.beatPosition == b) := by
          simp only [List.filter_cons, ih]

end TabSequencer

/-! ## Claims -/

/-- C9: For every note played, the additive voice's harmonic bank has
exactly 5 oscillators at the fundamental frequency and its integer
multiples 2x through 5x, with amplitudes 1.0, 0.6, 0.3, 0.15, 0.1
relative to the shared fundamental; on a wound string the harmonics
above the 2nd are further attenuated by 0.7.  The voice built by
`playSimpleGuitarNote` is the one appended to the engine's voice list. -/
theorem claim_C9_harmonics (freqOf : ℤ → ℚ) (s : EngineState) (midiNote : ℤ)
    (startTime duration : ℚ) (si : ℕ) (hsi : si < 6) :
    let f := freqOf midiNote
    let v := GuitarAudioEngine.mkVoice freqOf midiNote startTime duration si
    (GuitarAudioEngine.playSimpleGuitarNote freqOf s midiNote startTime
        duration si).voices.getLast? = some v ∧
    v.harmonics.length = 5 ∧
    v.harmonics.map (fun h => h.osc.freq) = [f, f * 2, f * 3, f * 4, f * 5] ∧
    v.harmonics.map (fun h => h.gainValue) =
      (if (GuitarAudioEngine.stringCharacteristics.getD si
            { damping := 0, tension := 0, pluckPos := 0, isWound := false }
          ).isWound
       then [1.0, 0.6, 0.3 * 0.7, 0.15 * 0.7, 0.1 * 0.7]
       else [1.0, 0.6, 0.3, 0.15, 0.1]) := by
  refine ⟨?_, ?_⟩
  · simp [GuitarAudioEngine.playSimpleGuitarNote]
  interval_cases si <;>
    simp [GuitarAudioEngine.mkVoice, GuitarAudioEngine.harmonicTable,
      GuitarAudioEngine.stringCharacteristics, List.enum]

/-- C9 witness at string index 3 (a wound string). -/
theorem claim_C9_harmonics_witness :
    (3 : ℕ) < 6 ∧
    (let f := (fun _ : ℤ => (110 : ℚ)) 64
     let v := GuitarAudioEngine.mkVoice (fun _ => 110) 64 0 1 3
     (GuitarAudioEngine.playSimpleGuitarNote (fun _ => 110)
         GuitarAudioEngine.engCtor 64 0 1 3).voices.getLast? = some v ∧
     v.harmonics.length = 5 ∧
     v.harmonics.map (fun h => h.osc.freq) = [f, f * 2, f * 3, f * 4, f * 5] ∧
     v.harmonics.map (fun h => h.gainValue) =
       (if (GuitarAudioEngine.stringCharacteristics.getD 3
             { damping := 0, tension := 0, pluckPos := 0, isWound := false }
           ).isWound
        then [1.0, 0.6, 0.3 * 0.7, 0.15 * 0.7, 0.1 * 0.7]
        else [1.0, 0.6, 0.3, 0.15, 0.1])) :=
  ⟨by norm_num,
   claim_C9_harmonics (fun _ => 110) GuitarAudioEngine.engCtor 64 0 1 3
     (by norm_num)⟩

/-- C10: `play()` with tab data loaded forces the master volume to 0.3
(for every time at or after the call, whatever master volume — including
0 — had been chosen before), in both its resume and fresh-start paths. -/
theorem claim_C10_play_forces_master (eng : EngineState)
    (s : TabSequencer.State) (now u : ℚ) (tab : TabData)
    (htab : s.tabData = some tab) (hu : now ≤ u) :
    ((TabSequencer.play eng s now).1.masterGain.valueAt u) = some 0.3 := by
  have hinit : (GuitarAudioEngine.initEngine eng).initialized = true := by
    unfold GuitarAudioEngine.initEngine
    by_cases h : eng.initialized <;> simp [h]
  unfold TabSequencer.play
  rw [htab]
  have hmv : ∀ e : EngineState, e.initialized = true →
      (GuitarAudioEngine.setMasterVolume e now 0.3).masterGain.valueAt u =
        some 0.3 := by
    intro e he
    unfold GuitarAudioEngine.setMasterVolume
    rw [if_pos (by simp [he])]
    have : max (0 : ℚ) (min 1 0.3) = 0.3 := by norm_num
    rw [this]
    exact AudioParam.valueAt_cancel_set _ now 0.3 u hu
  by_cases hp : s.isPaused <;>
    simp [hp, hmv (GuitarAudioEngine.initEngine eng) hinit]

/-- C10 witness: on a muted engine with a loaded tab. -/
theorem claim_C10_play_forces_master_witness :
    seqWithEmptyTab.tabData = some emptyTab ∧ (0 : ℚ) ≤ 1 ∧
    ((TabSequencer.play mutedEngine seqWithEmptyTab 0).1.masterGain.valueAt 1)
      = some 0.3 :=
  ⟨rfl, by norm_num,
   claim_C10_play_forces_master mutedEngine seqWithEmptyTab 0 1 emptyTab rfl
     (by norm_num)⟩

/-- C3: Pausing at clock `tp` and resuming at clock `tr` accumulates
`tr - tp` into the paused duration; the beat computed by the first tick
at the resume instant equals the beat at the pause instant, the trigger
list (with its fired flags) is untouched, and playback is running
again.  The identity is exact, so it holds within any tick granularity. -/
theorem claim_C3_pause_resume_continuity (s : TabSequencer.State)
    (tp tr : ℚ) :
    TabSequencer.computedBeat
        (TabSequencer.resume (TabSequencer.pause s tp) tr) tr
      = TabSequencer.computedBeat s tp ∧
    (TabSequencer.resume (TabSequencer.pause s tp) tr).allNotes
      = s.allNotes ∧
    (TabSequencer.resume (TabSequencer.pause s tp) tr).totalPausedDuration
      = s.totalPausedDuration + (tr - tp) ∧
    (TabSequencer.resume (TabSequencer.pause s tp) tr).isPlaying = true := by
  refine ⟨?_, rfl, rfl, rfl⟩
  unfold TabSequencer.computedBeat TabSequencer.resume TabSequencer.pause
  ring_nf

/-- C7 counterexample: `setTabData` stores an out-of-range tab tempo
verbatim, so the sequencer's tempo leaves `[60, 200]`. -/
theorem claim_C7_counterexample :
    (TabSequencer.setTabData TabSequencer.ctor tab300).tempo = 300 ∧
    ¬ ((TabSequencer.setTabData TabSequencer.ctor tab300).tempo ≤ 200) := by
  constructor <;> norm_num [TabSequencer.setTabData, TabSequencer.ctor, tab300]

/-- C7 amended: `setTempo` always clamps into `[60, 200]`, but
`setTabData` copies a (truthy) tab tempo verbatim without clamping, so
the invariant can be broken by loading a tab (the app restores it only
because the controller calls `setTempo` afterwards). -/
theorem claim_C7_amended :
    (∀ (s : TabSequencer.State) (bpm : ℚ),
      60 ≤ (TabSequencer.setTempo s bpm).tempo ∧
      (TabSequencer.setTempo s bpm).tempo ≤ 200) ∧
    (∀ (s : TabSequencer.State) (tab : TabData) (t : ℚ),
      tab.tempo = some t → t ≠ 0 →
      (TabSequencer.setTabData s tab).tempo = t) := by
  constructor
  · intro s bpm
    unfold TabSequencer.setTempo
    constructor
    · exact le_max_left 60 (min 200 bpm)
    · exact max_le (by norm_num) (min_le_left 200 bpm)
  · intro s tab t ht hne
    unfold TabSequencer.setTabData
    rw [ht]
    simp [hne]

/-- C7 amended witness: clamping of 300 by `setTempo`, and verbatim
storage of 300 by `setTabData`. -/
theorem claim_C7_amended_witness :
    (60 ≤ (TabSequencer.setTempo TabSequencer.ctor 300).tempo ∧
     (TabSequencer.setTempo TabSequencer.ctor 300).tempo ≤ 200) ∧
    tab300.tempo = some 300 ∧ (300 : ℚ) ≠ 0 ∧
    (TabSequencer.setTabData TabSequencer.ctor tab300).tempo = 300 :=
  ⟨claim_C7_amended.1 TabSequencer.ctor 300, rfl, by norm_num,
   claim_C7_amended.2 TabSequencer.ctor tab300 300 rfl (by norm_num)⟩

/-- C2 (code bug): the tick's trigger window is `±0.05` in *beat* units,
not `±50 ms` converted to beats as the source's own comment ("with 50ms
lookahead") and the spec state.  At tempo 120 a beat is 0.5 s, so at a
computed beat of 2.08 the trigger at beat 2 lies 0.08 beats = 40 ms in
the past — inside the 50 ms window — yet the tick does not dispatch it
and leaves it unfired. -/
theorem claim_C2_lookahead_bug :
    TabSequencer.computedBeat c2State (26/25) = 2.08 ∧
    (2.08 - (2 : ℚ)) * (60 / c2State.tempo) ≤ 0.05 ∧
    (TabSequencer.tick c2State (26/25)).fired = [] ∧
    (TabSequencer.tick c2State (26/25)).state.allNotes.map
      (fun tn => tn.triggered) = [false] := by
  refine ⟨?_, ?_, ?_, ?_⟩ <;>
    norm_num [c2State, c2Tab, c2Note, TabSequencer.ctor,
      TabSequencer.startFreshPlayback, TabSequencer.prepareNotes,
      TabSequencer.flattenNotes, TabSequencer.sortTriggers,
      TabSequencer.insertTrig, TabSequencer.tick, TabSequencer.computedBeat,
      TabSequencer.firedDispatches, TabSequencer.fireAll,
      TabSequencer.shouldFire, TabSequencer.lookahead, TabSequencer.loop,
      TabSequencer.stopSeq, List.filterMap, decide_eq_true_eq]

/-- C4 counterexample: `c4Tab` has 1 measure (4 beats); playback was
prepared at tempo 120 (`totalDuration = 2` s) and then re-tempoed to 60.
The tick at clock 1 computes `currentBeat = 1` but reports progress
`min(1 / (totalDuration / beatDuration), 1) = 1/2`, not
`min(currentBeat / totalBeats, 1) = 1/4`: after a mid-playback
`setTempo` the reported value is no longer `currentBeat / totalBeats`. -/
theorem claim_C4_counterexample :
    (TabSequencer.tick c4State 1).state.currentBeat = 1 ∧
    (c4Tab.measures.length : ℚ) * 4 = 4 ∧
    (TabSequencer.tick c4State 1).progressReports = [1/2] ∧
    ¬ ((1 : ℚ)/2 = min ((1 : ℚ) / 4) 1) := by
  refine ⟨?_, ?_, ?_, ?_⟩ <;>
    norm_num [c4State, c4Tab, TabSequencer.ctor, TabSequencer.setTempo,
      TabSequencer.startFreshPlayback, TabSequencer.prepareNotes,
      TabSequencer.flattenNotes, TabSequencer.sortTriggers,
      TabSequencer.tick, TabSequencer.computedBeat,
      TabSequencer.firedDispatches, TabSequencer.fireAll,
      TabSequencer.shouldFire, TabSequencer.lookahead, TabSequencer.loop,
      TabSequencer.stopSeq, List.filterMap]

/-- C4 amended: on every tick while playing the reported progress is
`min(currentBeat / (totalDuration / beatDuration), 1)`, with
`totalDuration` frozen when `prepareNotes` last ran; whenever the
current tempo still equals the preparation tempo (i.e. `totalDuration =
measures.length * 4 * (60 / tempo)`), this equals
`min(currentBeat / totalBeats, 1)`.  A mid-playback `setTempo` breaks
that equation because `totalDuration` is not recomputed. -/
theorem claim_C4_amended (s : TabSequencer.State) (now : ℚ) (tab : TabData)
    (hplay : s.isPlaying = true) (htab : s.tabData = some tab)
    (hdur : s.totalDuration = (tab.measures.length : ℚ) * 4 * (60 / s.tempo)) :
    (TabSequencer.tick s now).progressReports.head? =
      some (min (TabSequencer.computedBeat s now /
        ((tab.measures.length : ℚ) * 4)) 1) := by
  have hbranch : (TabSequencer.tick s now).progressReports.head? =
      some (min (TabSequencer.computedBeat s now /
        (s.totalDuration / (60 / s.tempo))) 1) := by
    unfold TabSequencer.tick
    rw [hplay]
    split
    · dsimp only
      split
      · simp
      · split <;> simp
    · simp_all
  rw [hbranch]
  by_cases ht : (60 : ℚ) / s.tempo = 0
  · have hbeat : TabSequencer.computedBeat s now = 0 := by
      unfold TabSequencer.computedBeat
      rw [ht, div_zero]
    rw [hbeat]
    simp
  · rw [hdur, mul_div_assoc, div_self ht, mul_one]

/-- C4 amended witness: the `c2State` playback (prepared at its current
tempo 120) reports exactly `min(currentBeat / totalBeats, 1)`. -/
theorem claim_C4_amended_witness :
    c2State.isPlaying = true ∧ c2State.tabData = some c2Tab ∧
    c2State.totalDuration =
      (c2Tab.measures.length : ℚ) * 4 * (60 / c2State.tempo) ∧
    (TabSequencer.tick c2State (26/25)).progressReports.head? =
      some (min (TabSequencer.computedBeat c2State (26/25) /
        ((c2Tab.measures.length : ℚ) * 4)) 1) :=
  ⟨rfl, rfl,
   by norm_num [c2State, c2Tab, TabSequencer.ctor,
     TabSequencer.startFreshPlayback, TabSequencer.prepareNotes],
   claim_C4_amended c2State (26/25) c2Tab rfl rfl
     (by norm_num [c2State, c2Tab, TabSequencer.ctor,
       TabSequencer.startFreshPlayback, TabSequencer.prepareNotes])⟩

/-- C5: the loop reset repositions `currentBeat` to exactly the
loop-start boundary (both as the stored field and as the beat the next
tick computes), zeroes the paused-duration accumulator, and un-fires
exactly the triggers with beat position in `[loopStart, loopEnd)`
(others keep their fired state); the tick performs this reset exactly
when looping is on and the computed beat reaches the loop end.
Consequently with loop range `[0,8)` a trigger at beat 9 is outside
every firing window while the computed beat stays below 8.95 (the loop
boundary plus one window), while an un-fired trigger at beat 3 is
dispatched (with start offset 0 at exact alignment) and re-armed each
iteration, and a fired trigger is never dispatched again. -/
theorem claim_C5_loop_reset :
    (∀ (s : TabSequencer.State) (now : ℚ),
      (TabSequencer.loop s now).currentBeat = (s.loopStartMeasure - 1) * 4 ∧
      (TabSequencer.loop s now).totalPausedDuration = 0 ∧
      (TabSequencer.loop s now).allNotes = s.allNotes.map (fun tn =>
        if (s.loopStartMeasure - 1) * 4 ≤ tn.beatPosition ∧
            tn.beatPosition < s.loopEndMeasure * 4
        then { tn with triggered := false } else tn)) ∧
    (∀ (s : TabSequencer.State) (now : ℚ), s.tempo ≠ 0 →
      TabSequencer.computedBeat (TabSequencer.loop s now) now =
        (s.loopStartMeasure - 1) * 4) ∧
    (∀ (s : TabSequencer.State) (now : ℚ), s.isPlaying = true →
      s.isLooping = true →
      s.loopEndMeasure * 4 ≤ TabSequencer.computedBeat s now →
      (TabSequencer.tick s now).state =
        TabSequencer.loop
          { s with currentBeat := TabSequencer.computedBeat s now,
                   allNotes := TabSequencer.fireAll
                     (TabSequencer.computedBeat s now) s.allNotes } now) ∧
    (∀ (beat : ℚ) (tn : TabSequencer.TrigNote), tn.beatPosition = 9 →
      beat < 8.95 → TabSequencer.shouldFire beat tn = false) ∧
    (∀ (spb : ℚ) (tn : TabSequencer.TrigNote), tn.beatPosition = 3 →
      tn.triggered = false →
      TabSequencer.firedDispatches 3 spb [tn] =
        [{ note := tn.note, startTime := 0, duration := tn.beatDuration * spb }] ∧
      TabSequencer.fireAll 3 [tn] = [{ tn with triggered := true }]) ∧
    (∀ (beat spb : ℚ) (tn : TabSequencer.TrigNote), tn.triggered = true →
      TabSequencer.firedDispatches beat spb [tn] = [] ∧
      TabSequencer.fireAll beat [tn] = [tn]) := by
  refine ⟨?_, ?_, ?_, ?_, ?_, ?_⟩
  · intro s now
    refine ⟨rfl, rfl, rfl⟩
  · intro s now ht
    have hspb : (60 : ℚ) / s.tempo ≠ 0 := div_ne_zero (by norm_num) ht
    unfold TabSequencer.computedBeat TabSequencer.loop
    field_simp
  · intro s now hplay hloop hbeat
    unfold TabSequencer.tick
    rw [hplay]
    dsimp only
    rw [if_pos rfl, if_pos ⟨hloop, hbeat⟩]
  · intro beat tn htn hb
    have : ¬ (tn.beatPosition - TabSequencer.lookahead ≤ beat) := by
      rw [htn]
      unfold TabSequencer.lookahead
      intro h
      norm_num at h hb
      linarith
    simp [TabSequencer.shouldFire, this]
  · intro spb tn htn htrig
    have hsf : TabSequencer.shouldFire 3 tn = true := by
      simp [TabSequencer.shouldFire, htrig, htn, TabSequencer.lookahead]
      norm_num
    refine ⟨?_, ?_⟩
    · simp [TabSequencer.firedDispatches, hsf, htn]
    · simp [TabSequencer.fireAll, hsf]
  · intro beat spb tn htrig
    have hsf : TabSequencer.shouldFire beat tn = false := by
      simp [TabSequencer.shouldFire, htrig]
    refine ⟨?_, ?_⟩
    · simp [TabSequencer.firedDispatches, hsf]
    · simp [TabSequencer.fireAll, hsf]

/-- C5 witness: concrete loop reset on `c5State` (loop range `[0,8)`,
triggers at beats 3, 9 and a fired one at 1), plus the concrete tick
that performs it at computed beat 8.2, the silent window for the
trigger at 9, the re-fire of the trigger at 3, and the guard on the
fired trigger. -/
theorem claim_C5_loop_reset_witness :
    ((TabSequencer.loop c5State 20).currentBeat =
        (c5State.loopStartMeasure - 1) * 4 ∧
      (TabSequencer.loop c5State 20).totalPausedDuration = 0) ∧
    (c5State.tempo ≠ 0 ∧
      TabSequencer.computedBeat (TabSequencer.loop c5State 20) 20 =
        (c5State.loopStartMeasure - 1) * 4) ∧
    (c5State.isPlaying = true ∧ c5State.isLooping = true ∧
      c5State.loopEndMeasure * 4 ≤ TabSequencer.computedBeat c5State (41/10) ∧
      (TabSequencer.tick c5State (41/10)).state =
        TabSequencer.loop
          { c5State with
              currentBeat := TabSequencer.computedBeat c5State (41/10),
              allNotes := TabSequencer.fireAll
                (TabSequencer.computedBeat c5State (41/10)) c5State.allNotes }
          (41/10)) ∧
    (c5Trig9.beatPosition = 9 ∧ (8.2 : ℚ) < 8.95 ∧
      TabSequencer.shouldFire 8.2 c5Trig9 = false) ∧
    (c5Trig3.beatPosition = 3 ∧ c5Trig3.triggered = false ∧
      TabSequencer.firedDispatches 3 (1/2) [c5Trig3] =
        [{ note := c5Trig3.note, startTime := 0,
           duration := c5Trig3.beatDuration * (1/2) }]) ∧
    (c5TrigFired.triggered = true ∧
      TabSequencer.firedDispatches 1 (1/2) [c5TrigFired] = []) := by
  have hbeat : c5State.loopEndMeasure * 4 ≤
      TabSequencer.computedBeat c5State (41/10) := by
    norm_num [TabSequencer.computedBeat, c5State, TabSequencer.ctor]
  refine ⟨⟨(claim_C5_loop_reset.1 c5State 20).1,
           (claim_C5_loop_reset.1 c5State 20).2.1⟩,
          ⟨by norm_num [c5State, TabSequencer.ctor],
           claim_C5_loop_reset.2.1 c5State 20
             (by norm_num [c5State, TabSequencer.ctor])⟩,
          ⟨rfl, rfl, hbeat,
           claim_C5_loop_reset.2.2.1 c5State (41/10) rfl rfl hbeat⟩,
          ⟨rfl, by norm_num,
           claim_C5_loop_reset.2.2.2.1 8.2 c5Trig9 rfl (by norm_num)⟩,
          ⟨rfl, rfl,
           (claim_C5_loop_reset.2.2.2.2.1 (1/2) c5Trig3 rfl rfl).1⟩,
          ⟨rfl,
           (claim_C5_loop_reset.2.2.2.2.2 1 (1/2) c5TrigFired rfl).1⟩⟩

/-- C6 counterexample: the only note of `c6Tab` sits in measure index 1
at local beat 2 with no `globalBeatPosition`; the claim's derivation
`measureIndex * beatsPerMeasure + beatPosition` would give 6, but
`prepareNotes` falls back to the local `beatPosition` and produces a
trigger at beat 2. -/
theorem claim_C6_counterexample :
    (TabSequencer.flattenNotes c6Tab).map (fun tn => tn.beatPosition) = [2] ∧
    (TabSequencer.prepareNotes c6Seq).allNotes.map (fun tn => tn.beatPosition)
      = [2] ∧
    ¬ ((2 : ℚ) = 1 * 4 + 2) := by
  refine ⟨?_, ?_, by norm_num⟩ <;>
    norm_num [TabSequencer.flattenNotes, TabSequencer.prepareNotes,
      TabSequencer.sortTriggers, TabSequencer.insertTrig, c6Seq, c6Tab,
      c6MeasB, c6Note, TabSequencer.ctor, List.filterMap_cons,
      List.filterMap_nil, List.flatMap_cons, List.flatMap_nil]

/-- C6 amended: every note with `fret ≥ 0` (and only those) is
flattened into a trigger whose absolute beat is `globalBeatPosition`
when supplied and the note's *local* `beatPosition` otherwise (the
measure-offset derivation happens upstream, outside the sequencer); the
trigger list `prepareNotes` installs is the flattened list sorted
ascending by beat position, as a permutation, with the original order
preserved among equal positions (stability). -/
theorem claim_C6_amended :
    (∀ (tab : TabData) (tn : TabSequencer.TrigNote),
      tn ∈ TabSequencer.flattenNotes tab →
      0 ≤ tn.note.fret ∧
      tn.beatPosition = tn.note.globalBeatPosition.getD tn.note.beatPosition ∧
      tn.beatDuration = tn.note.beatDuration ∧ tn.triggered = false) ∧
    (∀ (tab : TabData) (m : Measure) (n : NoteEvent),
      m ∈ tab.measures → n ∈ m.notes → 0 ≤ n.fret →
      ({ note := n, beatPosition := n.globalBeatPosition.getD n.beatPosition,
         beatDuration := n.beatDuration, triggered := false }
        : TabSequencer.TrigNote) ∈ TabSequencer.flattenNotes tab) ∧
    (∀ l, (TabSequencer.sortTriggers l).Perm l) ∧
    (∀ l, (TabSequencer.sortTriggers l).Pairwise
      (fun a b => a.beatPosition ≤ b.beatPosition)) ∧
    (∀ (l : List TabSequencer.TrigNote) (b : ℚ),
      (TabSequencer.sortTriggers l).filter (fun tn => tn.beatPosition == b)
        = l.filter (fun tn => tn.beatPosition == b)) ∧
    (∀ (s : TabSequencer.State) (tab : TabData), s.tabData = some tab →
      (TabSequencer.prepareNotes s).allNotes =
        TabSequencer.sortTriggers (TabSequencer.flattenNotes tab)) := by
  refine ⟨?_, ?_, TabSequencer.sortTriggers_perm,
    TabSequencer.sortTriggers_sorted,
    fun l b => TabSequencer.sortTriggers_filter_key b l, ?_⟩
  · intro tab tn h
    simp only [TabSequencer.flattenNotes, List.mem_flatMap,
      List.mem_filterMap] at h
    obtain ⟨m, hm, n, hn, hif⟩ := h
    by_cases hf : (0 : ℤ) ≤ n.fret
    · rw [if_pos hf] at hif
      cases hif
      exact ⟨hf, rfl, rfl, rfl⟩
    · rw [if_neg hf] at hif
      cases hif
  · intro tab m n hm hn hf
    simp only [TabSequencer.flattenNotes, List.mem_flatMap,
      List.mem_filterMap]
    exact ⟨m, hm, n, hn, by rw [if_pos hf]⟩
  · intro s tab htab
    unfold TabSequencer.prepareNotes
    rw [htab]

/-- C6 amended witness: the trigger derived from `c6Note` (global beat
missing, so the local beat 2) is the flattened list of `c6Tab`, and
`prepareNotes` installs its sorted form. -/
theorem claim_C6_amended_witness :
    (c6MeasB ∈ c6Tab.measures ∧ c6Note ∈ c6MeasB.notes ∧
      (0 : ℤ) ≤ c6Note.fret) ∧
    ({ note := c6Note,
       beatPosition := c6Note.globalBeatPosition.getD c6Note.beatPosition,
       beatDuration := c6Note.beatDuration, triggered := false }
      : TabSequencer.TrigNote) ∈ TabSequencer.flattenNotes c6Tab ∧
    c6Seq.tabData = some c6Tab ∧
    (TabSequencer.prepareNotes c6Seq).allNotes =
      TabSequencer.sortTriggers (TabSequencer.flattenNotes c6Tab) :=
  ⟨⟨by simp [c6Tab], by simp [c6MeasB], by norm_num [c6Note]⟩,
   claim_C6_amended.2.1 c6Tab c6MeasB c6Note (by simp [c6Tab])
     (by simp [c6MeasB]) (by norm_num [c6Note]),
   rfl,
   claim_C6_amended.2.2.2.2.2 c6Seq c6Tab rfl⟩

/-- C1: for every voice `stopAllNotes` finds registered (whatever its
scheduled start time, arrived or not), the stopped form of the voice is
in the resulting engine, every one of its oscillators — those still in
the tracking set are stopped at `t`, and any that had left the set via
the `ended` listener had already stopped by `t` — runs no later than
`t`, its per-voice gain is zero at every time from `t` on, and hence
the voice is inaudible from the cancellation instant onward. -/
theorem claim_C1_stopAllNotes_silences (s : EngineState) (t : ℚ) (v : Voice)
    (hinit : s.initialized = true) (hv : v ∈ s.voices)
    (hreg : v.inVoicesMap = true)
    (hosc : ∀ o ∈ v.oscillators, o.inOscSet = true ∨ o.stopTime ≤ t) :
    GuitarAudioEngine.stopVoice t v ∈
      (GuitarAudioEngine.stopAllNotes s t).voices ∧
    (∀ o ∈ (GuitarAudioEngine.stopVoice t v).oscillators, o.stopTime ≤ t) ∧
    (∀ u, t ≤ u →
      (GuitarAudioEngine.stopVoice t v).stoppableGain.valueAt u = some 0) ∧
    (∀ u, t ≤ u → ¬ (GuitarAudioEngine.stopVoice t v).audibleAt u) := by
  have hgain : ∀ u, t ≤ u →
      (GuitarAudioEngine.stopVoice t v).stoppableGain.valueAt u = some 0 := by
    intro u hu
    rw [GuitarAudioEngine.stopVoice_gain t v hreg]
    exact AudioParam.valueAt_cancel_set _ t 0 u hu
  refine ⟨?_, ?_, hgain, ?_⟩
  · unfold GuitarAudioEngine.stopAllNotes
    rw [hinit]
    simpa using List.mem_map_of_mem (GuitarAudioEngine.stopVoice t) hv
  · intro o ho
    rw [GuitarAudioEngine.oscillators_stopVoice] at ho
    obtain ⟨o0, ho0, rfl⟩ := List.mem_map.mp ho
    exact GuitarAudioEngine.stopOsc_stopTime_le t o0 (hosc o0 ho0)
  · intro u hu hcon
    exact hcon.2 (hgain u hu)

/-- C1 witness: the voice registered by `c1Engine`, cancelled at `t = 5`
and checked at `u = 6`. -/
theorem claim_C1_stopAllNotes_silences_witness :
    (c1Engine.initialized = true ∧ c1Voice ∈ c1Engine.voices ∧
      c1Voice.inVoicesMap = true ∧
      (∀ o ∈ c1Voice.oscillators, o.inOscSet = true ∨ o.stopTime ≤ 5)) ∧
    GuitarAudioEngine.stopVoice 5 c1Voice ∈
      (GuitarAudioEngine.stopAllNotes c1Engine 5).voices ∧
    (GuitarAudioEngine.stopVoice 5 c1Voice).stoppableGain.valueAt 6 = some 0 ∧
    ¬ (GuitarAudioEngine.stopVoice 5 c1Voice).audibleAt 6 := by
  have hv : c1Voice ∈ c1Engine.voices :=
    show c1Voice ∈ [c1Voice] from List.mem_singleton.mpr rfl
  have hosc : ∀ o ∈ c1Voice.oscillators, o.inOscSet = true ∨ o.stopTime ≤ 5 := by
    intro o ho
    simp [c1Voice, GuitarAudioEngine.mkVoice, GuitarAudioEngine.harmonicTable,
      Voice.oscillators, GuitarAudioEngine.stringCharacteristics,
      List.enum] at ho
    rcases ho with h | h | h | h | h | h <;> subst h <;> left <;> rfl
  have h := claim_C1_stopAllNotes_silences c1Engine 5 c1Voice rfl hv rfl hosc
  exact ⟨⟨rfl, hv, rfl, hosc⟩, h.1, h.2.2.1 6 (by norm_num),
    h.2.2.2 6 (by norm_num)⟩

/-- C8 counterexample: after `stopAllNotes` at time 0, a `playNote`
issued at time 1 is still governed by the master mute the cancellation
installed — the master gain at the new note's start time is 0.0001, not
the normal 0.3, so the new note does not produce its normal audible
output. -/
theorem claim_C8_counterexample :
    c8Engine.masterGain.valueAt 1 = some 0.0001 ∧
    ¬ (c8Engine.masterGain.valueAt 1 = some 0.3) := by
  have h1 : c8Engine.masterGain =
      ((((GuitarAudioEngine.initEngine
            GuitarAudioEngine.engCtor).masterGain.cancelScheduledValues
          0).setValueAtTime
          (((GuitarAudioEngine.initEngine
            GuitarAudioEngine.engCtor).masterGain.cancelScheduledValues
          0).valueNow 0) 0).linearRampToValueAtTime 0.0001 (0 + 0.01)) := rfl
  rw [h1, AudioParam.valueAt_cancel_set_ramp _ 0 _ 0.0001 (0 + 0.01) 1
    (by norm_num) (by norm_num)]
  constructor
  · rfl
  · intro h
    have := Option.some.inj h
    norm_num at this

/-- C8 amended: the registry clearing *is* synchronous — a voice created
by a `playNote` issued after `stopAllNotes` returned is appended to the
engine, registered, and its per-voice gain (constant 1) and oscillators
are untouched by that cancellation; but the master-output mute the
cancellation installed persists (`playNote` does not restore it), so
from `t + 0.01` on the master gain stays at 0.0001 — attenuating the
new note — until some later `setMasterVolume`. -/
theorem claim_C8_amended (freqOf : ℤ → ℚ) (s : EngineState)
    (t now off dur u : ℚ) (ev : NoteEvent)
    (hinit : s.initialized = true) (hf : 0 ≤ ev.fret)
    (h0 : 0 ≤ ev.string) (h6 : ev.string < 6) (hu : t + 0.01 ≤ u) :
    (GuitarAudioEngine.playNote freqOf (GuitarAudioEngine.stopAllNotes s t)
        now ev off dur).voices.getLast? =
      some (GuitarAudioEngine.mkVoice freqOf
        (GuitarAudioEngine.noteEventToMidiNote ev) (now + off) dur
        ev.string.toNat) ∧
    (GuitarAudioEngine.mkVoice freqOf
        (GuitarAudioEngine.noteEventToMidiNote ev) (now + off) dur
        ev.string.toNat).inVoicesMap = true ∧
    (∀ w, (GuitarAudioEngine.mkVoice freqOf
        (GuitarAudioEngine.noteEventToMidiNote ev) (now + off) dur
        ev.string.toNat).stoppableGain.valueAt w = some 1) ∧
    (GuitarAudioEngine.playNote freqOf (GuitarAudioEngine.stopAllNotes s t)
        now ev off dur).masterGain =
      (GuitarAudioEngine.stopAllNotes s t).masterGain ∧
    (GuitarAudioEngine.playNote freqOf (GuitarAudioEngine.stopAllNotes s t)
        now ev off dur).masterGain.valueAt u = some 0.0001 := by
  have hs1 : (GuitarAudioEngine.stopAllNotes s t).initialized = true := by
    rw [GuitarAudioEngine.stopAllNotes_initialized]
    exact hinit
  have hmidi : ¬ GuitarAudioEngine.noteEventToMidiNote ev < 0 :=
    not_lt.mpr (GuitarAudioEngine.noteEventToMidiNote_nonneg ev hf h0 h6)
  have hplay : GuitarAudioEngine.playNote freqOf
      (GuitarAudioEngine.stopAllNotes s t) now ev off dur =
      GuitarAudioEngine.playSimpleGuitarNote freqOf
        (GuitarAudioEngine.stopAllNotes s t)
        (GuitarAudioEngine.noteEventToMidiNote ev) (now + off) dur
        ev.string.toNat := by
    unfold GuitarAudioEngine.playNote
    rw [GuitarAudioEngine.initEngine_of_initialized _ hs1]
    dsimp only
    rw [if_neg hmidi]
  have hmaster : (GuitarAudioEngine.stopAllNotes s t).masterGain.valueAt u =
      some 0.0001 := by
    unfold GuitarAudioEngine.stopAllNotes
    rw [hinit]
    dsimp only
    exact AudioParam.valueAt_cancel_set_ramp _ t _ 0.0001 (t + 0.01) u
      (by linarith) hu
  refine ⟨?_, rfl, fun w => rfl, ?_, ?_⟩
  · rw [hplay]
    unfold GuitarAudioEngine.playSimpleGuitarNote
    simp
  · rw [hplay]
    rfl
  · rw [hplay]
    exact hmaster

/-- C8 amended witness: the concrete `c8Engine` run (cancel at 0, play
at 1, checked at 1). -/
theorem claim_C8_amended_witness :
    ((GuitarAudioEngine.initEngine GuitarAudioEngine.engCtor).initialized
        = true ∧
      (0 : ℤ) ≤ c2Note.fret ∧ (0 : ℤ) ≤ c2Note.string ∧
      c2Note.string < 6 ∧ (0 : ℚ) + 0.01 ≤ 1) ∧
    c8Engine.voices.getLast? =
      some (GuitarAudioEngine.mkVoice (fun _ => 110)
        (GuitarAudioEngine.noteEventToMidiNote c2Note) (1 + 0) 1
        c2Note.string.toNat) ∧
    (GuitarAudioEngine.mkVoice (fun _ => 110)
        (GuitarAudioEngine.noteEventToMidiNote c2Note) (1 + 0) 1
        c2Note.string.toNat).stoppableGain.valueAt 2 = some 1 ∧
    c8Engine.masterGain.valueAt 1 = some 0.0001 := by
  have h := claim_C8_amended (fun _ => 110)
    (GuitarAudioEngine.initEngine GuitarAudioEngine.engCtor) 0 1 0 1 1
    c2Note rfl (by norm_num [c2Note]) (by norm_num [c2Note])
    (by norm_num [c2Note]) (by norm_num)
  exact ⟨⟨rfl, by norm_num [c2Note], by norm_num [c2Note],
      by norm_num [c2Note], by norm_num⟩,
    h.1, h.2.2.1 2, h.2.2.2.2⟩
